import Mathlib

/-!
Shallow embedding of the core of `Click automation/antigravity_auto_permit.py`:
the PIL template matcher (`ButtonFinder.pil_template_match`, `find_button`),
the decision logic (`ButtonFinder.scan_and_act` together with `can_act`,
`click_at`, `send_keyboard`) and the allow-list reader
(`AllowedButtonsReader`).

Modelling conventions:
* Python strings are Lean `String`s; `str.lower()` is modelled character-wise
  on the ASCII range (`lowerChar`), `str.strip()` trims whitespace at both
  ends, and `needle in hay` is `pyIn needle hay`.
* Timestamps (`time.time()`) and float durations are modelled as rationals.
  Each `scan_and_act` call is given one timestamp `now`; the code reads the
  clock again when recording `last_action_time` (after the pre-action sleep),
  which can only increase the separation between dispatched actions, so the
  single-timestamp model is faithful for the cooldown claims.
* Captured frames and template images are `Img`: a width, a height and a
  pixel function returning an RGB triple of naturals.
* The allow-list reader appears in two forms sharing the parsing functions:
  `ChatView` is the reader's answer as consumed within one `scan_and_act`
  call, and `getAllowedButtons` is the caching/refresh state transition, with
  a boolean output reporting whether the underlying read (file I/O) happened.
* Python's `list(set(...))` (set iteration order unspecified) is modelled by
  `List.dedup`; claims depend only on membership and duplicate freeness.
* Python's `int(x)` is modelled as `⌊x⌋`; the two agree on the nonnegative
  products that occur here (confidence values lie in `[0, 1]`).
-/

namespace AutoPermit

/-- ASCII lower-casing of one character, modelling the effect of Python's
`str.lower()` on the characters occurring in button names. -/
def lowerChar (c : Char) : Char :=
  if 65 ≤ c.toNat ∧ c.toNat ≤ 90 then Char.ofNat (c.toNat + 32) else c

/-- Model of Python's `str.lower()`. -/
def pyLower (s : String) : String :=
  ⟨s.data.map lowerChar⟩

/-- `isPrefixB needle hay` decides whether `needle` starts `hay`. -/
def isPrefixB : List Char → List Char → Bool
  | [], _ => true
  | _ :: _, [] => false
  | a :: as, b :: bs => a == b && isPrefixB as bs

/-- `containsB hay needle` decides whether `needle` occurs contiguously inside
`hay`; this is Python's `needle in hay` on strings. -/
def containsB : List Char → List Char → Bool
  | [], needle => needle.isEmpty
  | c :: t, needle => isPrefixB needle (c :: t) || containsB t needle

/-- Model of Python's `needle in hay` substring test. -/
def pyIn (needle hay : String) : Bool :=
  containsB hay.data needle.data

/-- Model of Python's `str.startswith`. -/
def pyStartsWith (s pre : String) : Bool :=
  isPrefixB pre.data s.data

/-- Model of Python's `str.strip()` (whitespace trim at both ends). -/
def pyStrip (s : String) : String :=
  ⟨((s.data.dropWhile Char.isWhitespace).reverse.dropWhile Char.isWhitespace).reverse⟩

/-- Emptiness test on strings (Python falsiness of a string). -/
def pyEmpty (s : String) : Bool :=
  s.data.isEmpty

/-- Helper for `pySplitChar`: the accumulator holds the current fragment
reversed. -/
def splitCharAux (sep : Char) : List Char → List Char → List String
  | [], acc => [⟨acc.reverse⟩]
  | c :: t, acc =>
    if c == sep then ⟨acc.reverse⟩ :: splitCharAux sep t []
    else splitCharAux sep t (c :: acc)

/-- Model of Python's `str.split(sep)` for a one-character separator (the
source only splits on a newline and on a comma). -/
def pySplitChar (s : String) (sep : Char) : List String :=
  splitCharAux sep s.data []

/-- Model of Python's `sep.join(parts)`. -/
def pyJoin (sep : String) : List String → String
  | [] => ""
  | [x] => x
  | x :: xs => x ++ sep ++ pyJoin sep xs

/-! ## The decision core: `ButtonFinder.scan_and_act` (source lines 483-548)

`scan_and_act` walks the configured buttons in order.  For each button it
consults `should_process_button`, asks the screen for the button's image, and
then branches on the allow-list override and the configured action.  Every
branch either returns a decision string (possibly updating
`last_action_time`) or falls through to the next button leaving all state
unchanged (`click_at`/`send_keyboard` return `False` without side effects
when the cooldown blocks them, and the loop then continues). -/

/-- Per-button configuration: `btn_config.get("image", "")` and
`btn_config.get("action", "skip")`. -/
structure BtnCfg where
  image : String
  action : String
deriving DecidableEq

/-- The input injected on dispatch: a mouse click at coordinates
(`pyautogui.click`) or a keyboard chord (`keyboard.press_and_release`). -/
inductive Eff where
  | click (x y : ℤ)
  | chord (s : String)
deriving DecidableEq

/-- The allow-list reader's answer as consumed by one `scan_and_act` call:
whether chat-input mode is enabled, the currently allowed button names, and
the `fallback_to_config` flag. -/
structure ChatView where
  enabled : Bool
  allowed : List String
  fallback : Bool
deriving DecidableEq

/-- `AllowedButtonsReader.should_process_button` (source lines 280-309). -/
def shouldProcessButton (c : ChatView) (buttonName : String) : Bool :=
  if !c.enabled then true
  else if c.allowed.isEmpty then c.fallback
  else
    c.allowed.any fun a =>
      pyIn a (pyLower buttonName) || pyIn (pyLower buttonName) a

/-- `ButtonFinder.can_act` (source lines 328-330):
`(time.time() - self.last_action_time) > self.cooldown`. -/
def canAct (cooldown now last : ℚ) : Bool :=
  decide (cooldown < now - last)

/-- The guard at source lines 500-502: with a chat reader present, a button
whose name fails `should_process_button` is skipped for the cycle. -/
def chatBlocks (chat : Option ChatView) (buttonName : String) : Bool :=
  match chat with
  | some c => !shouldProcessButton c buttonName
  | none => false

/-- The override guard at source line 511:
`chat_reader and chat_reader.enabled and chat_reader.get_allowed_buttons()`. -/
def chatOverride (chat : Option ChatView) : Bool :=
  match chat with
  | some c => c.enabled && !c.allowed.isEmpty
  | none => false

/-- One iteration of the button loop of `scan_and_act` (source lines
495-546).  Returns `none` when the loop falls through to the next button
(leaving `last_action_time` unchanged), and `some (decision, newLast, eff)`
when the iteration returns a decision string.  `click_at` and
`send_keyboard` set `last_action_time` to the call timestamp on success and
do nothing on cooldown failure; `send_keyboard` also requires the keyboard
module (`HAS_KEYBOARD`). -/
def tryButton (chat : Option ChatView) (found : String → Option (ℤ × ℤ))
    (hasKeyboard : Bool) (cooldown now last : ℚ)
    (buttonName : String) (cfg : BtnCfg) : Option (String × ℚ × Option Eff) :=
  if chatBlocks chat buttonName then none
  else
    match found cfg.image with
    | none => none
    | some (x, y) =>
      if chatOverride chat then
        if pyIn "confirm" (pyLower buttonName) || pyIn "accept" (pyLower buttonName) ||
            pyIn "deny_confirm" (pyLower buttonName) then
          if canAct cooldown now last then
            some ("APPROVED: " ++ buttonName ++ " (from chat)", now, some (Eff.click x y))
          else none
        else if pyIn "deny" (pyLower buttonName) || pyIn "reject" (pyLower buttonName) then
          if canAct cooldown now last then
            some ("DENIED: " ++ buttonName ++ " (from chat)", now, some (Eff.click x y))
          else none
        else
          if canAct cooldown now last then
            some ("CLICKED: " ++ buttonName ++ " (from chat)", now, some (Eff.click x y))
          else none
      else
        if cfg.action == "approve" then
          if pyIn "confirm" (pyLower buttonName) || pyIn "accept" (pyLower buttonName) then
            if canAct cooldown now last then
              some ("APPROVED: " ++ buttonName, now, some (Eff.click x y))
            else none
          else if hasKeyboard && canAct cooldown now last then
            some ("APPROVED: " ++ buttonName, now, some (Eff.chord "alt+enter"))
          else none
        else if cfg.action == "deny" then
          if pyIn "deny" (pyLower buttonName) || pyIn "reject" (pyLower buttonName) then
            if canAct cooldown now last then
              some ("DENIED: " ++ buttonName, now, some (Eff.click x y))
            else none
          else if hasKeyboard && canAct cooldown now last then
            some ("DENIED: " ++ buttonName, now, some (Eff.chord "escape"))
          else none
        else if cfg.action == "skip" then
          some ("SKIPPED: " ++ buttonName, last, none)
        else none

/-- The button loop of `scan_and_act` (source lines 495-548): the first
iteration that returns a decision ends the scan; otherwise the result is
`None` and `last_action_time` is unchanged. -/
def scanButtons (chat : Option ChatView) (found : String → Option (ℤ × ℤ))
    (hasKeyboard : Bool) (cooldown now last : ℚ) :
    List (String × BtnCfg) → Option String × ℚ × Option Eff
  | [] => (none, last, none)
  | (buttonName, cfg) :: rest =>
    match tryButton chat found hasKeyboard cooldown now last buttonName cfg with
    | some (s, l2, e) => (some s, l2, e)
    | none => scanButtons chat found hasKeyboard cooldown now last rest

/-- `ButtonFinder.scan_and_act` (source lines 483-548), as a function of the
button table, the chat reader's view, the screen oracle `found` (the result
of `find_button` for each image name), the keyboard availability, the
cooldown, the call timestamp and the current `last_action_time`.  Returns
the decision string, the new `last_action_time`, and the injected input. -/
def scanAndAct (buttons : List (String × BtnCfg)) (chat : Option ChatView)
    (found : String → Option (ℤ × ℤ)) (hasKeyboard : Bool)
    (cooldown now last : ℚ) : Option String × ℚ × Option Eff :=
  scanButtons chat found hasKeyboard cooldown now last buttons

/-- The inputs of one `scan_and_act` call in a monitoring sequence. -/
structure CallIn where
  buttons : List (String × BtnCfg)
  chat : Option ChatView
  found : String → Option (ℤ × ℤ)
  hasKeyboard : Bool
  now : ℚ

/-- A sequence of `scan_and_act` calls threading `last_action_time`,
recording each call's timestamp and decision. -/
def runCalls (cooldown : ℚ) (last : ℚ) : List CallIn → List (ℚ × Option String)
  | [] => []
  | c :: cs =>
    let r := scanAndAct c.buttons c.chat c.found c.hasKeyboard cooldown c.now last
    (c.now, r.1) :: runCalls cooldown r.2.1 cs

/-- A decision that dispatched input: a non-`None` result other than the
`SKIPPED: ...` strings (the monitor classifies results by their leading
tag). -/
def isDispatch (r : Option String) : Bool :=
  match r with
  | some s => !isPrefixB "SKIPPED".data s.data
  | none => false

/-! ## The template matcher: `ButtonFinder.pil_template_match` (source lines
332-381) and the center conversion in `find_button` (source lines 431-437). -/

/-- An RGB image: pixel `(x, y)` is `pix x y`, a triple of channel values. -/
structure Img where
  width : ℕ
  height : ℕ
  pix : ℕ → ℕ → ℕ × ℕ × ℕ

/-- Python's `range(0, stop, step)` for a positive `step` (for a negative or
zero Python `stop` value the caller passes `0`, since `range` is then
empty, matching truncated subtraction on `ℕ`). -/
def pyRange (stop step : ℕ) : List ℕ :=
  List.range' 0 ((stop + step - 1) / step) step

/-- `sample_step = max(1, min(tw, th) // 10)` (source line 350). -/
def sampleStep (t : Img) : ℕ :=
  max 1 (min t.width t.height / 10)

/-- The sample points of the template (source lines 351-354): coordinates on
the `sample_step` grid paired with the template pixel there, in row-major
order. -/
def samplePoints (t : Img) : List (ℕ × ℕ × (ℕ × ℕ × ℕ)) :=
  (pyRange t.height (sampleStep t)).flatMap fun y =>
    (pyRange t.width (sampleStep t)).map fun x => (x, y, t.pix x y)

/-- Number of sample points. -/
def numSamples (t : Img) : ℕ :=
  (samplePoints t).length

/-- Per-channel comparison at source lines 370-372: each absolute channel
difference is strictly below 30. -/
def pixSimilar (a b : ℕ × ℕ × ℕ) : Bool :=
  decide (|(a.1 : ℤ) - (b.1 : ℤ)| < 30) &&
  decide (|(a.2.1 : ℤ) - (b.2.1 : ℤ)| < 30) &&
  decide (|(a.2.2 : ℤ) - (b.2.2 : ℤ)| < 30)

/-- The number of matching sample points when the template is laid at offset
`(sx, sy)` of the frame (source lines 365-375).  The guarded pixel access of
the source never faults: every sampled coordinate stays inside the frame for
the offsets the scan visits. -/
def matchCountAt (screen template : Img) (sx sy : ℕ) : ℕ :=
  (samplePoints template).countP fun p =>
    pixSimilar p.2.2 (screen.pix (sx + p.1) (sy + p.2.1))

/-- `threshold = int(len(sample_points) * self.confidence)` (source line
356). -/
def threshold (template : Img) (conf : ℚ) : ℤ :=
  ⌊(numSamples template : ℚ) * conf⌋

/-- The candidate offsets visited by the scan loops (source lines 362-364):
`range(0, sh - th, 3)` crossed with `range(0, sw - tw, 3)`, in row-major
order. -/
def candidates (screen template : Img) : List (ℕ × ℕ) :=
  (pyRange (screen.height - template.height) 3).flatMap fun sy =>
    (pyRange (screen.width - template.width) 3).map fun sx => (sx, sy)

/-- The body of the scan loops (source lines 377-379): a candidate replaces
the best one when its match count reaches the threshold and strictly exceeds
the best count so far. -/
def matchStep (count : ℕ × ℕ → ℕ) (thr : ℤ) (acc : Option (ℕ × ℕ) × ℕ)
    (c : ℕ × ℕ) : Option (ℕ × ℕ) × ℕ :=
  if thr ≤ (count c : ℤ) ∧ acc.2 < count c then (some c, count c) else acc

/-- The scan loops as a fold over the candidate list, starting from
`best_match = None`, `best_matches = 0` (source lines 358-379). -/
def selFold (count : ℕ × ℕ → ℕ) (thr : ℤ) (l : List (ℕ × ℕ)) :
    Option (ℕ × ℕ) × ℕ :=
  l.foldl (matchStep count thr) (none, 0)

/-- The `(best_match, best_matches)` state after the scan loops of
`pil_template_match`. -/
def matchFold (screen template : Img) (conf : ℚ) : Option (ℕ × ℕ) × ℕ :=
  selFold (fun c => matchCountAt screen template c.1 c.2)
    (threshold template conf) (candidates screen template)

/-- `ButtonFinder.pil_template_match` (source lines 332-381): the best
qualifying offset together with the template dimensions, or `none`. -/
def pilTemplateMatch (screen template : Img) (conf : ℚ) :
    Option (ℕ × ℕ × ℕ × ℕ) :=
  (matchFold screen template conf).1.map fun c =>
    (c.1, c.2, template.width, template.height)

/-- The PIL fallback path of `ButtonFinder.find_button` (source lines
431-437): convert a match box into the center point, offset by the search
region origin `(rx, ry)`. -/
def findButtonPil (rx ry : ℕ) (screen template : Img) (conf : ℚ) :
    Option (ℕ × ℕ) :=
  (pilTemplateMatch screen template conf).map fun m =>
    (rx + m.1 + m.2.2.1 / 2, ry + m.2.1 + m.2.2.2 / 2)

/-- The template's pixel buffer occurs verbatim in the frame at offset
`(ox, oy)`. -/
def occursAt (template screen : Img) (ox oy : ℕ) : Prop :=
  ∀ x < template.width, ∀ y < template.height,
    screen.pix (ox + x) (oy + y) = template.pix x y

instance occursAtDecidable (template screen : Img) (ox oy : ℕ) :
    Decidable (occursAt template screen ox oy) := by
  unfold occursAt
  infer_instance

/-- Maximum of a list of naturals (0 on the empty list). -/
def listMax (l : List ℕ) : ℕ :=
  l.foldr max 0

/-- Modelled from the claim wording (C3), for comparison with the code: a
sample point matches when every channel difference is within 30
(inclusive). -/
def pixSimilarLe (a b : ℕ × ℕ × ℕ) : Bool :=
  decide (|(a.1 : ℤ) - (b.1 : ℤ)| ≤ 30) &&
  decide (|(a.2.1 : ℤ) - (b.2.1 : ℤ)| ≤ 30) &&
  decide (|(a.2.2 : ℤ) - (b.2.2 : ℤ)| ≤ 30)

/-- Match count under the inclusive tolerance of the claim wording. -/
def matchCountLe (screen template : Img) (sx sy : ℕ) : ℕ :=
  (samplePoints template).countP fun p =>
    pixSimilarLe p.2.2 (screen.pix (sx + p.1) (sy + p.2.1))

/-- Modelled from the claim wording (C3): a position qualifies when
`matches / total_samples ≥ confidence_threshold`. -/
def claimQualifies (screen template : Img) (conf : ℚ) (c : ℕ × ℕ) : Bool :=
  decide ((matchCountLe screen template c.1 c.2 : ℚ) / (numSamples template : ℚ) ≥ conf)

/-- Modelled from the claim wording (C3): among qualifying candidate
positions, the one with the highest match count, ties resolved to the first
found in row-major scan order. -/
def claimSelect (screen template : Img) (conf : ℚ) : Option (ℕ × ℕ) :=
  let q := (candidates screen template).filter (claimQualifies screen template conf)
  q.find? fun c =>
    matchCountLe screen template c.1 c.2 ==
      listMax (q.map fun c2 => matchCountLe screen template c2.1 c2.2)

/-- The amended reference selection (C3): strict per-channel tolerance 30,
qualification `count ≥ int(total * confidence)` together with `count ≥ 1`,
and among qualifying positions the first, in row-major scan order, with the
maximal match count. -/
def amendedQualifies (screen template : Img) (conf : ℚ) (c : ℕ × ℕ) : Bool :=
  decide (threshold template conf ≤ (matchCountAt screen template c.1 c.2 : ℤ)) &&
  decide (1 ≤ matchCountAt screen template c.1 c.2)

/-- The amended reference selection function (C3). -/
def amendedSelect (screen template : Img) (conf : ℚ) : Option (ℕ × ℕ) :=
  let q := (candidates screen template).filter (amendedQualifies screen template conf)
  q.find? fun c =>
    matchCountAt screen template c.1 c.2 ==
      listMax (q.map fun c2 => matchCountAt screen template c2.1 c2.2)

/-! ## The allow-list reader: `AllowedButtonsReader` (source lines 154-309). -/

/-- The alias table of `AllowedButtonsReader.__init__` (source lines
175-181). -/
def aliasTable : List (String × List String) :=
  [("alt + enter", ["accept", "accept_reject_combo"]),
   ("alt+enter", ["accept", "accept_reject_combo"]),
   ("enter", ["confirm", "deny_confirm_combo"]),
   ("escape", ["deny", "reject"]),
   ("esc", ["deny", "reject"])]

/-- Python's `name in self.aliases` dictionary lookup. -/
def lookupAlias (n : String) : Option (List String) :=
  (aliasTable.find? fun p => p.1 == n).map fun p => p.2

/-- `AllowedButtonsReader.read_file_text` (source lines 205-220): strip each
line, discard empty lines and lines starting with `#`, join the rest with
commas. -/
def readFileText (content : String) : String :=
  pyJoin ", "
    (((pySplitChar content '\n').map pyStrip).filter fun l =>
      !pyEmpty l && !pyStartsWith l "#")

/-- The per-token resolution step of `AllowedButtonsReader.parse_button_names`
(source lines 234-249): empty tokens are dropped, alias-table hits expand,
otherwise the first configured button name with substring overlap is taken,
and with no overlap the token passes through verbatim. -/
def resolveToken (cfgButtons : List String) (acc : List String)
    (tok : String) : List String :=
  if pyEmpty tok then acc
  else
    match lookupAlias tok with
    | some names => acc ++ names
    | none =>
      match cfgButtons.find? fun btn =>
          pyIn tok (pyLower btn) || pyIn (pyLower btn) tok with
      | some btn => acc ++ [btn]
      | none => acc ++ [tok]

/-- `AllowedButtonsReader.parse_button_names` (source lines 222-251). -/
def parseButtonNames (cfgButtons : List String) (text : String) : List String :=
  if pyEmpty text then []
  else
    let rawNames := (pySplitChar text ',').map fun n => pyLower (pyStrip n)
    (rawNames.foldl (resolveToken cfgButtons) []).dedup

/-- The mutable state of `AllowedButtonsReader` relevant to
`get_allowed_buttons`. -/
structure ReaderState where
  lastReadTime : ℚ
  cachedButtons : List String
  lastFileContent : String
deriving DecidableEq

/-- `AllowedButtonsReader.get_allowed_buttons` (source lines 253-278), as a
function of the enabled flag, the refresh interval, the configured button
names, the raw file content the read would produce, the call timestamp and
the current state.  The boolean output records whether the underlying read
(file I/O) was performed. -/
def getAllowedButtons (enabled : Bool) (refreshInterval : ℚ)
    (cfgButtons : List String) (rawContent : String) (now : ℚ)
    (st : ReaderState) : List String × ReaderState × Bool :=
  if !enabled then ([], st, false)
  else if refreshInterval < now - st.lastReadTime then
    let fileText := readFileText rawContent
    let st1 :=
      if fileText = st.lastFileContent then st
      else { st with
               cachedButtons := parseButtonNames cfgButtons fileText,
               lastFileContent := fileText }
    let st2 := { st1 with lastReadTime := now }
    (st2.cachedButtons, st2, true)
  else (st.cachedButtons, st, false)

/-- The button names of `DEFAULT_CONFIG["buttons"]`, in insertion order
(source lines 66-72). -/
def defaultButtonNames : List String :=
  ["confirm", "deny", "accept", "reject", "deny_confirm_combo",
   "accept_reject_combo"]

/-- A screen oracle that reports every image at a fixed location. -/
def foundConst : String → Option (ℤ × ℤ) :=
  fun _ => some (10, 20)

/-- A 2-by-2 all-black template (4 sample points). -/
def tmplFlat : Img :=
  ⟨2, 2, fun _ _ => (0, 0, 0)⟩

/-- A 5-by-5 black frame with a single white pixel at the origin: laying
`tmplFlat` at offset (0, 0) matches 3 of its 4 sample points. -/
def frameDot : Img :=
  ⟨5, 5, fun x y => if x = 0 ∧ y = 0 then (255, 255, 255) else (0, 0, 0)⟩

/-- A 1-by-1 all-black template (one sample point). -/
def tmplPixel : Img :=
  ⟨1, 1, fun _ _ => (0, 0, 0)⟩

/-- A 4-by-4 frame whose channels all differ from black by exactly the
tolerance value 30. -/
def frameGray30 : Img :=
  ⟨4, 4, fun _ _ => (30, 30, 30)⟩

/-- A 4-by-4 all-white frame (no overlap with a black template). -/
def frameWhite : Img :=
  ⟨4, 4, fun _ _ => (255, 255, 255)⟩

/-- A 1-by-1 uniform template of channel value 7. -/
def tmplGray : Img :=
  ⟨1, 1, fun _ _ => (7, 7, 7)⟩

/-- A 10-by-10 frame uniformly equal to `tmplGray`'s pixel: the template
occurs verbatim at every offset. -/
def frameGray : Img :=
  ⟨10, 10, fun _ _ => (7, 7, 7)⟩

/-- The decision string emitted by the allow-list override branch of
`scan_and_act` (source lines 510-521), classified by the lowercased button
name: approve-class names (containing `confirm` or `accept`, which covers
the combined `deny_confirm` token), then deny-class names (containing `deny`
or `reject`), then the generic click. -/
def overrideDecision (buttonName : String) : String :=
  if pyIn "confirm" (pyLower buttonName) || pyIn "accept" (pyLower buttonName) then
    "APPROVED: " ++ buttonName ++ " (from chat)"
  else if pyIn "deny" (pyLower buttonName) || pyIn "reject" (pyLower buttonName) then
    "DENIED: " ++ buttonName ++ " (from chat)"
  else
    "CLICKED: " ++ buttonName ++ " (from chat)"

/-! ## Properties

General lemmas about the embedded definitions, followed by the claim
theorems with their witnesses and counterexamples. -/

lemma lowerChar_lowerChar (c : Char) : lowerChar (lowerChar c) = lowerChar c := by
  unfold lowerChar
  by_cases h : 65 ≤ c.toNat ∧ c.toNat ≤ 90
  · rw [if_pos h]
    have hv : (c.toNat + 32).isValidChar := by
      left
      have : c.toNat + 32 < 55296 := by omega
      simpa [Char.isValidCharNat] using this
    have ht : (Char.ofNat (c.toNat + 32)).toNat = c.toNat + 32 := by
      simp only [Char.ofNat]
      rw [dif_pos hv]
      rfl
    rw [if_neg]
    rw [ht]
    omega
  · rw [if_neg h, if_neg h]

lemma pyLower_pyLower (s : String) : pyLower (pyLower s) = pyLower s := by
  obtain ⟨d⟩ := s
  simp only [pyLower, List.map_map]
  congr 1
  exact List.map_congr_left fun a _ => lowerChar_lowerChar a

lemma isPrefixB_map (f : Char → Char) :
    ∀ n h : List Char, isPrefixB n h = true → isPrefixB (n.map f) (h.map f) = true := by
  intro n
  induction n with
  | nil => intro h _; simp [isPrefixB]
  | cons a as ih =>
    intro h hp
    cases h with
    | nil => simp [isPrefixB] at hp
    | cons b bs =>
      simp only [isPrefixB, Bool.and_eq_true, beq_iff_eq] at hp
      obtain ⟨rfl, hp2⟩ := hp
      simp only [List.map_cons, isPrefixB, beq_self_eq_true, Bool.true_and]
      exact ih bs hp2

lemma containsB_map (f : Char → Char) :
    ∀ h n : List Char, containsB h n = true → containsB (h.map f) (n.map f) = true := by
  intro h
  induction h with
  | nil =>
    intro n hc
    simp only [containsB, List.isEmpty_iff] at hc
    subst hc
    simp [containsB]
  | cons c t ih =>
    intro n hc
    simp only [containsB, Bool.or_eq_true] at hc
    rcases hc with hc | hc
    · simp only [List.map_cons, containsB, Bool.or_eq_true]
      exact Or.inl (isPrefixB_map f n (c :: t) hc)
    · simp only [List.map_cons, containsB, Bool.or_eq_true]
      exact Or.inr (ih n hc)

lemma isPrefixB_trans :
    ∀ m n h : List Char, isPrefixB m n = true → isPrefixB n h = true →
      isPrefixB m h = true := by
  intro m
  induction m with
  | nil => intro n h _ _; simp [isPrefixB]
  | cons a as ih =>
    intro n h h1 h2
    cases n with
    | nil => simp [isPrefixB] at h1
    | cons b bs =>
      cases h with
      | nil => simp [isPrefixB] at h2
      | cons c cs =>
        simp only [isPrefixB, Bool.and_eq_true, beq_iff_eq] at h1 h2 ⊢
        obtain ⟨rfl, h1b⟩ := h1
        obtain ⟨rfl, h2b⟩ := h2
        exact ⟨rfl, ih bs cs h1b h2b⟩

lemma containsB_cons (c : Char) (t n : List Char) (h : containsB t n = true) :
    containsB (c :: t) n = true := by
  simp only [containsB, Bool.or_eq_true]
  exact Or.inr h

lemma containsB_nil_needle : ∀ h : List Char, containsB h [] = true := by
  intro h
  cases h with
  | nil => rfl
  | cons c t => simp [containsB, isPrefixB]

lemma containsB_isPrefixB_trans :
    ∀ n m h : List Char, containsB n m = true → isPrefixB n h = true →
      containsB h m = true := by
  intro n
  induction n with
  | nil =>
    intro m h h1 _
    simp only [containsB, List.isEmpty_iff] at h1
    subst h1
    exact containsB_nil_needle h
  | cons b bs ih =>
    intro m h h1 h2
    cases h with
    | nil => simp [isPrefixB] at h2
    | cons c cs =>
      simp only [isPrefixB, Bool.and_eq_true, beq_iff_eq] at h2
      obtain ⟨rfl, h2b⟩ := h2
      simp only [containsB, Bool.or_eq_true] at h1
      rcases h1 with h1 | h1
      · simp only [containsB, Bool.or_eq_true]
        exact Or.inl (isPrefixB_trans m (b :: bs) (b :: cs) h1
          (by simp only [isPrefixB, beq_self_eq_true, Bool.true_and]
              exact h2b))
      · exact containsB_cons b cs m (ih m cs h1 h2b)

lemma containsB_trans :
    ∀ h n m : List Char, containsB h n = true → containsB n m = true →
      containsB h m = true := by
  intro h
  induction h with
  | nil =>
    intro n m h1 h2
    simp only [containsB, List.isEmpty_iff] at h1
    subst h1
    simp only [containsB, List.isEmpty_iff] at h2
    subst h2
    rfl
  | cons c t ih =>
    intro n m h1 h2
    simp only [containsB, Bool.or_eq_true] at h1
    rcases h1 with h1 | h1
    · exact containsB_isPrefixB_trans n m (c :: t) h2 h1
    · exact containsB_cons c t m (ih n m h1 h2)

lemma pyIn_pyLower (needle hay : String) (h : pyIn needle hay = true) :
    pyIn (pyLower needle) (pyLower hay) = true := by
  exact containsB_map lowerChar hay.data needle.data h

lemma pyIn_deny_confirm (s : String)
    (h : pyIn "deny_confirm" (pyLower s) = true) :
    pyIn "confirm" (pyLower s) = true := by
  exact containsB_trans (pyLower s).data ("deny_confirm".data) ("confirm".data) h (by decide)


lemma isDispatch_skipped (n : String) :
    isDispatch (some ("SKIPPED: " ++ n)) = false := by
  obtain ⟨d⟩ := n
  rfl

lemma isDispatch_approved (n : String) :
    isDispatch (some ("APPROVED: " ++ n)) = true := by
  obtain ⟨d⟩ := n
  rfl

lemma isDispatch_denied (n : String) :
    isDispatch (some ("DENIED: " ++ n)) = true := by
  obtain ⟨d⟩ := n
  rfl

lemma isDispatch_approved_chat (n : String) :
    isDispatch (some ("APPROVED: " ++ n ++ " (from chat)")) = true := by
  obtain ⟨d⟩ := n
  rfl

lemma isDispatch_denied_chat (n : String) :
    isDispatch (some ("DENIED: " ++ n ++ " (from chat)")) = true := by
  obtain ⟨d⟩ := n
  rfl

lemma isDispatch_clicked_chat (n : String) :
    isDispatch (some ("CLICKED: " ++ n ++ " (from chat)")) = true := by
  obtain ⟨d⟩ := n
  rfl

lemma canAct_lt {cooldown now last : ℚ} (h : canAct cooldown now last = true) :
    cooldown < now - last := by
  rwa [canAct, decide_eq_true_eq] at h

lemma tryButton_spec {chat : Option ChatView} {found : String → Option (ℤ × ℤ)}
    {hk : Bool} {cd now last : ℚ} {name : String} {cfg : BtnCfg}
    {s : String} {l2 : ℚ} {e : Option Eff}
    (h : tryButton chat found hk cd now last name cfg = some (s, l2, e)) :
    (l2 = last ∧ isDispatch (some s) = false) ∨
    (l2 = now ∧ cd < now - last ∧ isDispatch (some s) = true) := by
  rw [tryButton] at h
  rcases hf : found cfg.image with _ | ⟨x, y⟩ <;> rw [hf] at h
  · split_ifs at h
  · split_ifs at h with h1 h2 h3 h4 h5 h6 h7 h8 h9 h10 h11 h12 h13 h14 <;>
      simp only [Option.some.injEq, Prod.mk.injEq] at h
    all_goals try (obtain ⟨rfl, rfl, rfl⟩ := h)
    · exact Or.inr ⟨rfl, canAct_lt (by assumption), isDispatch_approved_chat name⟩
    · exact Or.inr ⟨rfl, canAct_lt (by assumption), isDispatch_denied_chat name⟩
    · exact Or.inr ⟨rfl, canAct_lt (by assumption), isDispatch_clicked_chat name⟩
    · exact Or.inr ⟨rfl, canAct_lt (by assumption), isDispatch_approved name⟩
    · exact Or.inr ⟨rfl, canAct_lt ((Bool.and_eq_true hk (canAct cd now last)).mp
        (by assumption)).2, isDispatch_approved name⟩
    · exact Or.inr ⟨rfl, canAct_lt (by assumption), isDispatch_denied name⟩
    · exact Or.inr ⟨rfl, canAct_lt ((Bool.and_eq_true hk (canAct cd now last)).mp
        (by assumption)).2, isDispatch_denied name⟩
    · exact Or.inl ⟨rfl, isDispatch_skipped name⟩

lemma scanButtons_last (chat : Option ChatView) (found : String → Option (ℤ × ℤ))
    (hk : Bool) (cd now last : ℚ) :
    ∀ bs : List (String × BtnCfg),
      (isDispatch (scanButtons chat found hk cd now last bs).1 = true →
        (scanButtons chat found hk cd now last bs).2.1 = now ∧ cd < now - last) ∧
      (isDispatch (scanButtons chat found hk cd now last bs).1 = false →
        (scanButtons chat found hk cd now last bs).2.1 = last) := by
  intro bs
  induction bs with
  | nil =>
    constructor
    · intro hd
      simp [scanButtons, isDispatch] at hd
    · intro
      rfl
  | cons b rest ih =>
    obtain ⟨name, cfg⟩ := b
    rcases ht : tryButton chat found hk cd now last name cfg with _ | ⟨s, l2, e⟩
    · simpa only [scanButtons, ht] using ih
    · have h1 : (scanButtons chat found hk cd now last ((name, cfg) :: rest)).1 = some s := by
        simp [scanButtons, ht]
      have h2 : (scanButtons chat found hk cd now last ((name, cfg) :: rest)).2.1 = l2 := by
        simp [scanButtons, ht]
      rcases tryButton_spec ht with ⟨hl2, hnd⟩ | ⟨hl2, hgap, hdisp⟩
      · constructor
        · intro hd
          rw [h1, hnd] at hd
          exact Bool.noConfusion hd
        · intro
          rw [h2, hl2]
      · constructor
        · intro
          rw [h2, hl2]
          exact ⟨rfl, hgap⟩
        · intro hd
          rw [h1, hdisp] at hd
          exact Bool.noConfusion hd

lemma runCalls_gap (cd : ℚ) :
    ∀ (cs : List CallIn) (l : ℚ),
      List.Pairwise (fun a b => a.now ≤ b.now) cs →
      (∀ c ∈ cs, l ≤ c.now) →
      ∀ e ∈ runCalls cd l cs, isDispatch e.2 = true → cd < e.1 - l := by
  intro cs
  induction cs with
  | nil =>
    intro l _ _ e he
    simp [runCalls] at he
  | cons c cs2 ih =>
    intro l hpw hle e he hd
    have hspec := scanButtons_last c.chat c.found c.hasKeyboard cd c.now l c.buttons
    rw [runCalls] at he
    simp only [scanAndAct] at he
    rcases List.mem_cons.mp he with rfl | he2
    · exact hspec.1 hd |>.2
    · rcases hdd : isDispatch (scanButtons c.chat c.found c.hasKeyboard cd c.now l c.buttons).1
        with _ | _
      · have hl2 : (scanButtons c.chat c.found c.hasKeyboard cd c.now l c.buttons).2.1 = l :=
          hspec.2 hdd
        rw [hl2] at he2
        exact ih l hpw.of_cons (fun d hd2 => hle d (List.mem_cons_of_mem c hd2)) e he2 hd
      · obtain ⟨hl2, hgap⟩ := hspec.1 hdd
        rw [hl2] at he2
        have hcnow : ∀ d ∈ cs2, c.now ≤ d.now :=
          fun d hd2 => List.rel_of_pairwise_cons hpw hd2
        have hrec := ih c.now hpw.of_cons hcnow e he2 hd
        have hcle : l ≤ c.now := hle c (List.mem_cons_self c cs2)
        linarith

lemma scan_blocked_single (name : String) (cfg : BtnCfg) (chat : Option ChatView)
    (found : String → Option (ℤ × ℤ)) (hk : Bool) (cd now last : ℚ)
    (hb : chatBlocks chat name = true) :
    scanAndAct [(name, cfg)] chat found hk cd now last = (none, last, none) := by
  simp [scanAndAct, scanButtons, tryButton, hb]

lemma scan_skip_single (name img : String) (found : String → Option (ℤ × ℤ))
    (hk : Bool) (cd now last : ℚ) (p : ℤ × ℤ) (hf : found img = some p) :
    scanAndAct [(name, ⟨img, "skip"⟩)] none found hk cd now last
      = (some ("SKIPPED: " ++ name), last, none) := by
  obtain ⟨x, y⟩ := p
  simp [scanAndAct, scanButtons, tryButton, chatBlocks, chatOverride, hf]

lemma scan_approve_click_single (name img : String)
    (found : String → Option (ℤ × ℤ)) (hk : Bool) (cd now last : ℚ) (x y : ℤ)
    (hf : found img = some (x, y))
    (hn : (pyIn "confirm" (pyLower name) || pyIn "accept" (pyLower name)) = true)
    (hca : canAct cd now last = true) :
    scanAndAct [(name, ⟨img, "approve"⟩)] none found hk cd now last
      = (some ("APPROVED: " ++ name), now, some (Eff.click x y)) := by
  simp [scanAndAct, scanButtons, tryButton, chatBlocks, chatOverride, hf, hn, hca]

/-- C1 (corrected): for any monotone sequence of `scan_and_act` calls, two
decisions that dispatch input (non-`None` and not `SKIPPED`) are separated by
more than the configured cooldown; and while `now - last_action_at <
cooldown` a call never emits a dispatching decision (it returns `None` or a
`SKIPPED` decision, since the `skip` branch bypasses the cooldown gate). -/
theorem c1_cooldown_separation (cd last0 : ℚ) (cs : List CallIn)
    (hmono : List.Pairwise (fun a b => a.now ≤ b.now) cs) :
    List.Pairwise
      (fun a b => isDispatch a.2 = true → isDispatch b.2 = true → cd < b.1 - a.1)
      (runCalls cd last0 cs) ∧
    ∀ (buttons : List (String × BtnCfg)) (chat : Option ChatView)
      (found : String → Option (ℤ × ℤ)) (hk : Bool) (now last : ℚ),
      now - last < cd →
      isDispatch (scanAndAct buttons chat found hk cd now last).1 = false := by
  constructor
  · revert hmono
    induction cs generalizing last0 with
    | nil =>
      intro _
      simp [runCalls]
    | cons c cs2 ih =>
      intro hmono
      simp only [runCalls]
      refine List.Pairwise.cons ?_ (ih _ hmono.of_cons)
      intro b hb hda hdb
      have hspec := scanButtons_last c.chat c.found c.hasKeyboard cd c.now last0 c.buttons
      simp only [scanAndAct] at hda hb ⊢
      obtain ⟨hl2, _⟩ := hspec.1 hda
      rw [hl2] at hb
      exact runCalls_gap cd cs2 c.now hmono.of_cons
        (fun d hd2 => List.rel_of_pairwise_cons hmono hd2) b hb hdb
  · intro buttons chat found hk now last hlt
    cases hd : isDispatch (scanAndAct buttons chat found hk cd now last).1 with
    | false => rfl
    | true =>
      exfalso
      have hspec := scanButtons_last chat found hk cd now last buttons
      simp only [scanAndAct] at hd
      obtain ⟨_, hgap⟩ := hspec.1 hd
      linarith

/-- C1 witness: the separation invariant evaluated on a concrete two-call
trace, and a concrete blocked call. -/
theorem c1_cooldown_separation_witness :
    List.Pairwise
      (fun a b => isDispatch a.2 = true → isDispatch b.2 = true → (2 : ℚ) < b.1 - a.1)
      (runCalls 2 (-100)
        [⟨[("confirm", ⟨"confirm.png", "approve"⟩)], none, foundConst, true, 0⟩,
         ⟨[("deny", ⟨"deny.png", "skip"⟩)], none, foundConst, true, 1/10⟩]) ∧
    isDispatch (scanAndAct [("confirm", ⟨"confirm.png", "approve"⟩)] none foundConst
      true 2 (1/10) 0).1 = false := by
  constructor
  · exact (c1_cooldown_separation 2 (-100) _
      (by simp [List.pairwise_cons])).1
  · exact (c1_cooldown_separation 2 0 [] List.Pairwise.nil).2
      [("confirm", ⟨"confirm.png", "approve"⟩)] none foundConst true (1/10) 0
      (by norm_num)

/-- C1 counterexample: a `skip`-configured button match 0.1 s after an
approval, with cooldown 2.0, still yields a non-`None` decision; the claim
as stated (no two non-`None` decisions closer than the cooldown, and `None`
during the cooldown window regardless of action) is false on the code. -/
theorem c1_skip_bypasses_cooldown_cex :
    runCalls 2 (-100)
      [⟨[("confirm", ⟨"confirm.png", "approve"⟩)], none, foundConst, true, 0⟩,
       ⟨[("deny", ⟨"deny.png", "skip"⟩)], none, foundConst, true, 1/10⟩]
      = [(0, some "APPROVED: confirm"), (1/10, some "SKIPPED: deny")] ∧
    (1/10 : ℚ) - 0 < 2 := by
  constructor
  · have h1 : scanAndAct [("confirm", ⟨"confirm.png", "approve"⟩)] none foundConst
        true 2 0 (-100) = (some "APPROVED: confirm", 0, some (Eff.click 10 20)) := by
      have h := scan_approve_click_single "confirm" "confirm.png" foundConst true
        2 0 (-100) 10 20 rfl (by decide) (by rw [canAct, decide_eq_true_eq]; norm_num)
      rw [show ("APPROVED: " ++ "confirm" : String) = "APPROVED: confirm" from rfl] at h
      exact h
    have h2 : scanAndAct [("deny", ⟨"deny.png", "skip"⟩)] none foundConst
        true 2 (1/10) 0 = (some "SKIPPED: deny", 0, none) := by
      have h := scan_skip_single "deny" "deny.png" foundConst true 2 (1/10) 0 (10, 20) rfl
      rw [show ("SKIPPED: " ++ "deny" : String) = "SKIPPED: deny" from rfl] at h
      exact h
    simp only [runCalls, h1, h2]
  · norm_num

/-- C2 (corrected): with no allow-list active, a `skip`-configured button
that is found yields `SKIPPED: name` and leaves `last_action_time`
unchanged; a second call any time later (in particular 0.1 s later with
cooldown 2.0) yields `SKIPPED: name` again rather than `None`. -/
theorem c2_skip_no_cooldown_update (name img : String)
    (found : String → Option (ℤ × ℤ)) (hk : Bool) (cd now last : ℚ)
    (p : ℤ × ℤ) (hf : found img = some p) :
    scanAndAct [(name, ⟨img, "skip"⟩)] none found hk cd now last
      = (some ("SKIPPED: " ++ name), last, none) ∧
    ∀ now2 : ℚ,
      runCalls cd last
        [⟨[(name, ⟨img, "skip"⟩)], none, found, hk, now⟩,
         ⟨[(name, ⟨img, "skip"⟩)], none, found, hk, now2⟩]
      = [(now, some ("SKIPPED: " ++ name)), (now2, some ("SKIPPED: " ++ name))] := by
  have h1 := scan_skip_single name img found hk cd now last p hf
  refine ⟨h1, ?_⟩
  intro now2
  have h2 := scan_skip_single name img found hk cd now2 last p hf
  simp only [runCalls, h1, h2]

/-- C2 witness: the skip behaviour on a concrete button and trace. -/
theorem c2_skip_no_cooldown_update_witness :
    scanAndAct [("deny", ⟨"deny.png", "skip"⟩)] none foundConst true 2 0 (-100)
      = (some ("SKIPPED: " ++ "deny"), -100, none) ∧
    runCalls 2 (-100)
      [⟨[("deny", ⟨"deny.png", "skip"⟩)], none, foundConst, true, 0⟩,
       ⟨[("deny", ⟨"deny.png", "skip"⟩)], none, foundConst, true, 1/10⟩]
      = [(0, some ("SKIPPED: " ++ "deny")), (1/10, some ("SKIPPED: " ++ "deny"))] := by
  have h := c2_skip_no_cooldown_update "deny" "deny.png" foundConst true 2 0 (-100)
    (10, 20) rfl
  exact ⟨h.1, h.2 (1/10)⟩

/-- C2 counterexample: on the code, the skip decision does not update
`cooldown_state.last_action_at` (it stays `-100`, not the call time `0`),
and a second call 0.1 s later with cooldown 2.0 returns `SKIPPED: deny`
again instead of `None`. -/
theorem c2_skip_updates_cooldown_cex :
    (scanAndAct [("deny", ⟨"deny.png", "skip"⟩)] none foundConst true 2 0 (-100)).2.1
      = -100 ∧
    ((-100 : ℚ) ≠ 0) ∧
    runCalls 2 (-100)
      [⟨[("deny", ⟨"deny.png", "skip"⟩)], none, foundConst, true, 0⟩,
       ⟨[("deny", ⟨"deny.png", "skip"⟩)], none, foundConst, true, 1/10⟩]
      = [(0, some "SKIPPED: deny"), (1/10, some "SKIPPED: deny")] := by
  refine ⟨rfl, by norm_num, ?_⟩
  rfl

/-- C5 (corrected): when the allow-list is active and non-empty and the
button is eligible — the allow-list entries compared verbatim against the
lowercased button name, by substring containment in either direction — the
emitted decision overrides the configured action, classifying the name in
order: approve class (`confirm`/`accept`, which covers the combined
`deny_confirm` token) clicks and reports `APPROVED`, else deny class
(`deny`/`reject`) clicks and reports `DENIED`, else a generic `CLICKED`
click. -/
theorem c5_override_classification (c : ChatView) (buttonName img act : String)
    (found : String → Option (ℤ × ℤ)) (hk : Bool) (cd now last : ℚ) (x y : ℤ)
    (hena : c.enabled = true) (hne : c.allowed ≠ [])
    (helig : (c.allowed.any fun a =>
      pyIn a (pyLower buttonName) || pyIn (pyLower buttonName) a) = true)
    (hf : found img = some (x, y))
    (hca : canAct cd now last = true) :
    scanAndAct [(buttonName, ⟨img, act⟩)] (some c) found hk cd now last
      = (some (overrideDecision buttonName), now, some (Eff.click x y)) := by
  have hempty : c.allowed.isEmpty = false := by
    cases hal : c.allowed with
    | nil => exact absurd hal hne
    | cons a l => rfl
  have hspb : shouldProcessButton c buttonName = true := by
    rw [shouldProcessButton, hena]
    simp [hempty, helig]
  have hblocks : chatBlocks (some c) buttonName = false := by
    simp [chatBlocks, hspb]
  have hover : chatOverride (some c) = true := by
    simp [chatOverride, hena, hempty]
  rcases hA : (pyIn "confirm" (pyLower buttonName) || pyIn "accept" (pyLower buttonName))
    with _ | _
  · have hA2 := Bool.or_eq_false_iff.mp hA
    have hDC : pyIn "deny_confirm" (pyLower buttonName) = false := by
      cases hdc : pyIn "deny_confirm" (pyLower buttonName) with
      | false => rfl
      | true => exact absurd (pyIn_deny_confirm buttonName hdc) (by simp [hA2.1])
    rcases hB : (pyIn "deny" (pyLower buttonName) || pyIn "reject" (pyLower buttonName))
      with _ | _
    · simp [scanAndAct, scanButtons, tryButton, hblocks, hf, hover, hA2.1, hA2.2,
        hDC, hB, hca, overrideDecision]
    · simp [scanAndAct, scanButtons, tryButton, hblocks, hf, hover, hA2.1, hA2.2,
        hDC, hB, hca, overrideDecision]
  · rcases Bool.or_eq_true_iff.mp hA with ha | ha <;>
      simp [scanAndAct, scanButtons, tryButton, hblocks, hf, hover, ha, hca,
        overrideDecision]

/-- C5 witness: with allow-list entry `deny` and button `deny` configured as
`skip`, the override dispatches `DENIED` via a click, ignoring the
configured action. -/
theorem c5_override_classification_witness :
    scanAndAct [("deny", ⟨"deny.png", "skip"⟩)] (some ⟨true, ["deny"], true⟩)
      foundConst true 2 0 (-10)
      = (some (overrideDecision "deny"), 0, some (Eff.click 10 20)) ∧
    overrideDecision "deny" = "DENIED: deny (from chat)" := by
  constructor
  · exact c5_override_classification ⟨true, ["deny"], true⟩ "deny" "deny.png" "skip"
      foundConst true 2 0 (-10) 10 20 rfl (by decide) (by decide) rfl
      (by rw [canAct, decide_eq_true_eq]; norm_num)
  · decide

/-- C5 counterexample: eligibility is not case-insensitive on the allow-list
entry side.  The entry `CONFIRM` and the button name `confirm` overlap
case-insensitively (second conjunct), yet the scan emits no decision at all:
the claim as stated (any case-insensitive overlap makes the button eligible
and dispatched) is false on the code. -/
theorem c5_case_insensitive_eligibility_cex :
    scanAndAct [("confirm", ⟨"confirm.png", "approve"⟩)]
      (some ⟨true, ["CONFIRM"], true⟩) foundConst true 2 0 (-100)
      = (none, -100, none) ∧
    (pyIn (pyLower "CONFIRM") (pyLower "confirm") ||
      pyIn (pyLower "confirm") (pyLower "CONFIRM")) = true := by
  exact ⟨rfl, by decide⟩

/-- C6 (confirmed): with a non-empty active allow-list, a button whose name
has no case-insensitive substring overlap (in either direction) with any
entry is silently skipped: the scan returns `None` and leaves the cooldown
state unchanged. -/
theorem c6_no_overlap_returns_none (c : ChatView) (buttonName : String)
    (cfg : BtnCfg) (found : String → Option (ℤ × ℤ)) (hk : Bool)
    (cd now last : ℚ)
    (hena : c.enabled = true) (hne : c.allowed ≠ [])
    (hnov : ∀ a ∈ c.allowed,
      pyIn (pyLower a) (pyLower buttonName) = false ∧
      pyIn (pyLower buttonName) (pyLower a) = false) :
    scanAndAct [(buttonName, cfg)] (some c) found hk cd now last
      = (none, last, none) := by
  have hempty : c.allowed.isEmpty = false := by
    cases hal : c.allowed with
    | nil => exact absurd hal hne
    | cons a l => rfl
  have hany : (c.allowed.any fun a =>
      pyIn a (pyLower buttonName) || pyIn (pyLower buttonName) a) = false := by
    cases h : (c.allowed.any fun a =>
        pyIn a (pyLower buttonName) || pyIn (pyLower buttonName) a) with
    | false => rfl
    | true =>
      exfalso
      obtain ⟨a, hmem, hor⟩ := by simpa using List.any_eq_true.mp h
      rcases hor with h1 | h1
      · have h2 := pyIn_pyLower a (pyLower buttonName) h1
        rw [pyLower_pyLower] at h2
        exact absurd h2 (by simp [(hnov a hmem).1])
      · have h2 := pyIn_pyLower (pyLower buttonName) a h1
        rw [pyLower_pyLower] at h2
        exact absurd h2 (by simp [(hnov a hmem).2])
  have hspb : shouldProcessButton c buttonName = false := by
    rw [shouldProcessButton, hena]
    simp [hempty, hany]
  exact scan_blocked_single buttonName cfg (some c) found hk cd now last
    (by simp [chatBlocks, hspb])

/-- C6 witness: allow-list `{xyz}` and button `confirm` share no substring
overlap, so the scan returns `None`. -/
theorem c6_no_overlap_returns_none_witness :
    scanAndAct [("confirm", ⟨"confirm.png", "approve"⟩)]
      (some ⟨true, ["xyz"], true⟩) foundConst true 2 0 (-100)
      = (none, -100, none) := by
  exact c6_no_overlap_returns_none ⟨true, ["xyz"], true⟩ "confirm"
    ⟨"confirm.png", "approve"⟩ foundConst true 2 0 (-100) rfl (by decide)
    (by decide)

lemma listMax_le (l : List ℕ) (v : ℕ) (h : ∀ x ∈ l, x ≤ v) : listMax l ≤ v := by
  induction l with
  | nil => simp [listMax]
  | cons a t ih =>
    simp only [listMax, List.foldr_cons]
    have h2 := ih fun x hx => h x (List.mem_cons_of_mem a hx)
    simp only [listMax] at h2
    exact max_le (h a (List.mem_cons_self a t)) h2

lemma le_listMax (l : List ℕ) (v : ℕ) (h : v ∈ l) : v ≤ listMax l := by
  induction l with
  | nil => simp at h
  | cons a t ih =>
    simp only [listMax, List.foldr_cons]
    rcases List.mem_cons.mp h with rfl | h2
    · exact le_max_left _ _
    · exact le_trans (by simpa [listMax] using ih h2) (le_max_right _ _)

lemma listMax_eq (l : List ℕ) (v : ℕ) (hmem : v ∈ l) (hb : ∀ x ∈ l, x ≤ v) :
    listMax l = v :=
  le_antisymm (listMax_le l v hb) (le_listMax l v hmem)

lemma mem_pyRange (n s y : ℕ) (hs : 0 < s) : y ∈ pyRange n s ↔ y < n ∧ s ∣ y := by
  rw [pyRange, List.mem_range']
  constructor
  · rintro ⟨i, hi, rfl⟩
    have key : (i + 1) * s ≤ n + s - 1 := (Nat.le_div_iff_mul_le hs).mp hi
    have h3 : (i + 1) * s = s * i + s := by ring
    rw [h3] at key
    constructor
    · show 0 + s * i < n
      generalize hm : s * i = m at key ⊢
      omega
    · show s ∣ 0 + s * i
      rw [Nat.zero_add]
      exact dvd_mul_right s i
  · rintro ⟨hlt, k, rfl⟩
    refine ⟨k, ?_, by ring⟩
    show k + 1 ≤ (n + s - 1) / s
    apply (Nat.le_div_iff_mul_le hs).mpr
    have h3 : (k + 1) * s = s * k + s := by ring
    rw [h3]
    generalize hm : s * k = m at hlt ⊢
    omega

lemma mem_candidates (screen template : Img) (c : ℕ × ℕ) :
    c ∈ candidates screen template ↔
      c.1 < screen.width - template.width ∧
      c.2 < screen.height - template.height ∧ 3 ∣ c.1 ∧ 3 ∣ c.2 := by
  obtain ⟨sx, sy⟩ := c
  rw [candidates]
  simp only [List.mem_flatMap, List.mem_map]
  constructor
  · rintro ⟨y, hy, x, hx, heq⟩
    simp only [Prod.mk.injEq] at heq
    obtain ⟨rfl, rfl⟩ := heq
    rw [mem_pyRange _ _ _ (by norm_num)] at hy hx
    exact ⟨hx.1, hy.1, hx.2, hy.2⟩
  · rintro ⟨h1, h2, h3, h4⟩
    exact ⟨sy, (mem_pyRange _ _ _ (by norm_num)).mpr ⟨h2, h4⟩, sx,
      (mem_pyRange _ _ _ (by norm_num)).mpr ⟨h1, h3⟩, rfl⟩

lemma sampleStep_pos (t : Img) : 0 < sampleStep t :=
  lt_of_lt_of_le one_pos (le_max_left 1 _)

lemma mem_samplePoints (t : Img) (p : ℕ × ℕ × (ℕ × ℕ × ℕ))
    (hp : p ∈ samplePoints t) :
    p.1 < t.width ∧ p.2.1 < t.height ∧ p.2.2 = t.pix p.1 p.2.1 := by
  rw [samplePoints] at hp
  simp only [List.mem_flatMap, List.mem_map] at hp
  obtain ⟨y, hy, x, hx, rfl⟩ := hp
  rw [mem_pyRange _ _ _ (sampleStep_pos t)] at hy hx
  exact ⟨hx.1, hy.1, rfl⟩

lemma numSamples_pos (t : Img) (hw : 0 < t.width) (hh : 0 < t.height) :
    0 < numSamples t := by
  have hmem : ((0 : ℕ), (0 : ℕ), t.pix 0 0) ∈ samplePoints t := by
    rw [samplePoints]
    simp only [List.mem_flatMap, List.mem_map]
    exact ⟨0, (mem_pyRange _ _ _ (sampleStep_pos t)).mpr ⟨hh, dvd_zero _⟩, 0,
      (mem_pyRange _ _ _ (sampleStep_pos t)).mpr ⟨hw, dvd_zero _⟩, rfl⟩
  rw [numSamples]
  exact List.length_pos_of_mem hmem

lemma matchCountAt_le (screen template : Img) (sx sy : ℕ) :
    matchCountAt screen template sx sy ≤ numSamples template :=
  List.countP_le_length _

lemma pixSimilar_self (a : ℕ × ℕ × ℕ) : pixSimilar a a = true := by
  simp [pixSimilar]

lemma matchCountAt_full (screen template : Img) (ox oy : ℕ)
    (hocc : occursAt template screen ox oy) :
    matchCountAt screen template ox oy = numSamples template := by
  rw [matchCountAt, numSamples]
  apply List.countP_eq_length.mpr
  intro p hp
  obtain ⟨hx, hy, hpix⟩ := mem_samplePoints template p hp
  rw [hocc p.1 hx p.2.1 hy, ← hpix]
  exact pixSimilar_self p.2.2

lemma threshold_le (template : Img) (conf : ℚ) (hconf : conf ≤ 1) :
    threshold template conf ≤ (numSamples template : ℤ) := by
  rw [threshold]
  calc ⌊(numSamples template : ℚ) * conf⌋
      ≤ ⌊(numSamples template : ℚ)⌋ :=
        Int.floor_le_floor (mul_le_of_le_one_right (by positivity) hconf)
    _ = (numSamples template : ℤ) := Int.floor_natCast _

lemma selFold_spec (count : ℕ × ℕ → ℕ) (thr : ℤ) :
    ∀ l : List (ℕ × ℕ),
      ((selFold count thr l).1 = none →
        (selFold count thr l).2 = 0 ∧
        ∀ c ∈ l, ¬(thr ≤ (count c : ℤ) ∧ 1 ≤ count c)) ∧
      (∀ p, (selFold count thr l).1 = some p →
        (selFold count thr l).2 = count p ∧
        thr ≤ (count p : ℤ) ∧ 1 ≤ count p ∧
        (∀ c ∈ l, thr ≤ (count c : ℤ) → count c ≤ count p) ∧
        ∃ l₁ l₂, l = l₁ ++ p :: l₂ ∧
          ∀ c ∈ l₁, thr ≤ (count c : ℤ) → count c < count p) := by
  intro l
  induction l using List.reverseRecOn with
  | nil =>
    constructor
    · intro _
      exact ⟨rfl, by simp⟩
    · intro p hp
      simp [selFold] at hp
  | append_singleton l a ih =>
    have hstep : selFold count thr (l ++ [a])
        = matchStep count thr (selFold count thr l) a := by
      rw [selFold, List.foldl_append]
      rfl
    rcases hb : (selFold count thr l).1 with _ | p0
    · obtain ⟨hm0, hnq⟩ := ih.1 hb
      by_cases hc : thr ≤ (count a : ℤ) ∧ (selFold count thr l).2 < count a
      · have hnew : selFold count thr (l ++ [a]) = (some a, count a) := by
          rw [hstep, matchStep, if_pos hc]
        constructor
        · intro hnone
          rw [hnew] at hnone
          simp at hnone
        · intro p hp
          rw [hnew] at hp
          obtain rfl : a = p := by simpa using hp
          have hone : 1 ≤ count a := by omega
          refine ⟨by rw [hnew], hc.1, hone, ?_, l, [], rfl, ?_⟩
          · intro c hcmem hthr
            rcases List.mem_append.mp hcmem with hcl | hca
            · have := hnq c hcl
              have hz : count c = 0 := by
                by_contra hnz
                exact this ⟨hthr, by omega⟩
              omega
            · obtain rfl : c = a := by simpa using hca
              exact le_refl _
          · intro c hcl hthr
            have := hnq c hcl
            have hz : count c = 0 := by
              by_contra hnz
              exact this ⟨hthr, by omega⟩
            omega
      · have hold : selFold count thr (l ++ [a]) = selFold count thr l := by
          rw [hstep, matchStep, if_neg hc]
        constructor
        · intro _
          rw [hold]
          refine ⟨hm0, ?_⟩
          intro c hcmem
          rcases List.mem_append.mp hcmem with hcl | hca
          · exact hnq c hcl
          · obtain rfl : c = a := by simpa using hca
            intro hand
            rw [hm0] at hc
            exact hc ⟨hand.1, by omega⟩
        · intro p hp
          rw [hold] at hp
          rw [hb] at hp
          simp at hp
    · obtain ⟨hm, hq1, hq2, hmax, l₁, l₂, hdec, hfirst⟩ := ih.2 p0 hb
      by_cases hc : thr ≤ (count a : ℤ) ∧ (selFold count thr l).2 < count a
      · have hnew : selFold count thr (l ++ [a]) = (some a, count a) := by
          rw [hstep, matchStep, if_pos hc]
        constructor
        · intro hnone
          rw [hnew] at hnone
          simp at hnone
        · intro p hp
          rw [hnew] at hp
          obtain rfl : a = p := by simpa using hp
          have hlt : count p0 < count a := by
            rw [hm] at hc
            exact hc.2
          refine ⟨by rw [hnew], hc.1, by omega, ?_, l, [], rfl, ?_⟩
          · intro c hcmem hthr
            rcases List.mem_append.mp hcmem with hcl | hca
            · exact le_of_lt (lt_of_le_of_lt (hmax c hcl hthr) hlt)
            · obtain rfl : c = a := by simpa using hca
              exact le_refl _
          · intro c hcl hthr
            exact lt_of_le_of_lt (hmax c hcl hthr) hlt
      · have hold : selFold count thr (l ++ [a]) = selFold count thr l := by
          rw [hstep, matchStep, if_neg hc]
        constructor
        · intro hnone
          rw [hold, hb] at hnone
          simp at hnone
        · intro p hp
          rw [hold, hb] at hp
          obtain rfl : p0 = p := by simpa using hp
          rw [hold]
          refine ⟨hm, hq1, hq2, ?_, l₁, l₂ ++ [a], ?_, hfirst⟩
          · intro c hcmem hthr
            rcases List.mem_append.mp hcmem with hcl | hca
            · exact hmax c hcl hthr
            · obtain rfl : c = a := by simpa using hca
              rw [hm] at hc
              have hnlt : ¬ count p0 < count c := fun hlt => hc ⟨hthr, hlt⟩
              omega
          · rw [hdec]
            simp [List.append_assoc]

lemma selFold_attains (count : ℕ × ℕ → ℕ) (thr : ℤ) (l : List (ℕ × ℕ))
    (c₀ : ℕ × ℕ) (hmem : c₀ ∈ l) (hthr : thr ≤ (count c₀ : ℤ))
    (hone : 1 ≤ count c₀) (hmax : ∀ c ∈ l, count c ≤ count c₀) :
    ∃ p, (selFold count thr l).1 = some p ∧ count p = count c₀ := by
  rcases hsel : (selFold count thr l).1 with _ | p
  · exact absurd ⟨hthr, hone⟩ (((selFold_spec count thr l).1 hsel).2 c₀ hmem)
  · obtain ⟨_, _, _, hmax2, l₁, l₂, hdec, _⟩ := (selFold_spec count thr l).2 p hsel
    have hpmem : p ∈ l := by
      rw [hdec]
      exact List.mem_append_right _ (List.mem_cons_self _ _)
    exact ⟨p, rfl, le_antisymm (hmax p hpmem) (hmax2 c₀ hmem hthr)⟩

lemma selFold_find (count : ℕ × ℕ → ℕ) (thr : ℤ) (l : List (ℕ × ℕ)) :
    (selFold count thr l).1 =
      (l.filter fun c => decide (thr ≤ (count c : ℤ)) && decide (1 ≤ count c)).find?
        fun c => count c ==
          listMax ((l.filter fun c =>
            decide (thr ≤ (count c : ℤ)) && decide (1 ≤ count c)).map count) := by
  rcases hsel : (selFold count thr l).1 with _ | p
  · obtain ⟨_, hnq⟩ := (selFold_spec count thr l).1 hsel
    have hfil : (l.filter fun c =>
        decide (thr ≤ (count c : ℤ)) && decide (1 ≤ count c)) = [] := by
      rw [List.filter_eq_nil_iff]
      intro c hc
      simp only [Bool.and_eq_true, decide_eq_true_eq, not_and]
      intro h1 h2
      exact hnq c hc ⟨h1, h2⟩
    rw [hfil]
    rfl
  · obtain ⟨hm, hq1, hq2, hmax, l₁, l₂, hdec, hfirst⟩ :=
      (selFold_spec count thr l).2 p hsel
    have hqp : (decide (thr ≤ (count p : ℤ)) && decide (1 ≤ count p)) = true := by
      simp [hq1, hq2]
    have hfil : (l.filter fun c =>
          decide (thr ≤ (count c : ℤ)) && decide (1 ≤ count c))
        = (l₁.filter fun c =>
            decide (thr ≤ (count c : ℤ)) && decide (1 ≤ count c)) ++
          p :: (l₂.filter fun c =>
            decide (thr ≤ (count c : ℤ)) && decide (1 ≤ count c)) := by
      rw [hdec, List.filter_append, List.filter_cons, if_pos hqp]
    have hM : listMax ((l.filter fun c =>
        decide (thr ≤ (count c : ℤ)) && decide (1 ≤ count c)).map count)
        = count p := by
      apply listMax_eq
      · rw [hfil]
        exact List.mem_map_of_mem count
          (List.mem_append_right _ (List.mem_cons_self _ _))
      · intro x hx
        obtain ⟨c, hcQ, rfl⟩ := List.mem_map.mp hx
        have hcl : c ∈ l := (List.mem_filter.mp hcQ).1
        have hcq := (List.mem_filter.mp hcQ).2
        simp only [Bool.and_eq_true, decide_eq_true_eq] at hcq
        exact hmax c hcl hcq.1
    simp only [hM]
    rw [hfil, List.find?_append]
    have h1 : ((l₁.filter fun c =>
        decide (thr ≤ (count c : ℤ)) && decide (1 ≤ count c)).find?
          fun c => count c == count p) = none := by
      rw [List.find?_eq_none]
      intro c hc
      have hcl : c ∈ l₁ := (List.mem_filter.mp hc).1
      have hcq := (List.mem_filter.mp hc).2
      simp only [Bool.and_eq_true, decide_eq_true_eq] at hcq
      have hlt := hfirst c hcl hcq.1
      simp only [beq_iff_eq]
      omega
    have h2 : ((p :: (l₂.filter fun c =>
        decide (thr ≤ (count c : ℤ)) && decide (1 ≤ count c))).find?
          fun c => count c == count p) = some p :=
      List.find?_cons_of_pos _ (by simp)
    rw [h1, h2]
    rfl

lemma candidates_nil (screen template : Img)
    (h : screen.width ≤ template.width ∨ screen.height ≤ template.height) :
    candidates screen template = [] ∧
    ∀ conf : ℚ, pilTemplateMatch screen template conf = none := by
  have hcand : candidates screen template = [] := by
    rcases h with h | h
    · rw [candidates]
      have h0 : screen.width - template.width = 0 := Nat.sub_eq_zero_of_le h
      rw [h0]
      have hpy : pyRange 0 3 = [] := rfl
      rw [hpy]
      simp
    · rw [candidates]
      have h0 : screen.height - template.height = 0 := Nat.sub_eq_zero_of_le h
      rw [h0]
      rfl
  refine ⟨hcand, fun conf => ?_⟩
  rw [pilTemplateMatch, matchFold, hcand]
  rfl

/-- C3 (corrected): the matcher's selection equals the amended reference
definition: strict per-channel tolerance (< 30), qualification by
`count ≥ int(total_samples * confidence)` together with `count ≥ 1`, and
among qualifying candidate positions the first, in row-major scan order,
attaining the maximal match count. -/
theorem c3_matcher_matches_amended_reference (screen template : Img) (conf : ℚ) :
    pilTemplateMatch screen template conf
      = (amendedSelect screen template conf).map fun c =>
          (c.1, c.2, template.width, template.height) := by
  rw [pilTemplateMatch, matchFold, selFold_find]
  rfl

/-- C3 counterexample: three boundary inputs separate the code from the
claim's reference.  (a) `int` truncation: 3 of 4 samples with confidence
0.8 qualifies for the code (`3 ≥ int(3.2)`) but `3/4 < 0.8` for the
reference.  (b) Tolerance: a channel difference of exactly 30 matches the
reference (within 30) but not the code (strictly below 30).  (c) A
confidence of 0 qualifies a zero-count position for the reference while the
code never selects a position with no matching sample. -/
theorem c3_reference_matcher_cex :
    (pilTemplateMatch frameDot tmplFlat (4/5) = some (0, 0, 2, 2) ∧
      claimSelect frameDot tmplFlat (4/5) = none) ∧
    (pilTemplateMatch frameGray30 tmplPixel 1 = none ∧
      claimSelect frameGray30 tmplPixel 1 = some (0, 0)) ∧
    (pilTemplateMatch frameWhite tmplPixel 0 = none ∧
      claimSelect frameWhite tmplPixel 0 = some (0, 0)) := by
  refine ⟨⟨?_, ?_⟩, ⟨?_, ?_⟩, ⟨?_, ?_⟩⟩
  · have h : threshold tmplFlat (4/5) = 3 := by
      have h2 : numSamples tmplFlat = 4 := by decide
      rw [threshold, h2]
      norm_num
    rw [pilTemplateMatch, matchFold, h]
    decide
  · have h : claimQualifies frameDot tmplFlat (4/5) (0, 0) = false := by
      rw [claimQualifies]
      have h2 : matchCountLe frameDot tmplFlat 0 0 = 3 := by decide
      have h3 : numSamples tmplFlat = 4 := by decide
      rw [h2, h3]
      simp only [decide_eq_false_iff_not]
      norm_num
    have hc : candidates frameDot tmplFlat = [(0, 0)] := by decide
    rw [claimSelect, hc]
    simp only [List.filter_cons, List.filter_nil, h, Bool.false_eq_true, if_false,
      List.find?_nil]
  · have h : threshold tmplPixel 1 = 1 := by
      have h2 : numSamples tmplPixel = 1 := by decide
      rw [threshold, h2]
      norm_num
    rw [pilTemplateMatch, matchFold, h]
    decide
  · have h : claimQualifies frameGray30 tmplPixel 1 (0, 0) = true := by
      rw [claimQualifies]
      have h2 : matchCountLe frameGray30 tmplPixel 0 0 = 1 := by decide
      have h3 : numSamples tmplPixel = 1 := by decide
      rw [h2, h3]
      simp only [decide_eq_true_eq]
      norm_num
    have hc : candidates frameGray30 tmplPixel = [(0, 0)] := by decide
    rw [claimSelect, hc]
    simp only [List.filter_cons, List.filter_nil, h, if_true]
    simp [listMax, matchCountLe]
  · have h : threshold tmplPixel 0 = 0 := by
      have h2 : numSamples tmplPixel = 1 := by decide
      rw [threshold, h2]
      norm_num
    rw [pilTemplateMatch, matchFold, h]
    decide
  · have h : claimQualifies frameWhite tmplPixel 0 (0, 0) = true := by
      rw [claimQualifies]
      have h2 : matchCountLe frameWhite tmplPixel 0 0 = 0 := by decide
      have h3 : numSamples tmplPixel = 1 := by decide
      rw [h2, h3]
      simp only [decide_eq_true_eq]
      norm_num
    have hc : candidates frameWhite tmplPixel = [(0, 0)] := by decide
    rw [claimSelect, hc]
    simp only [List.filter_cons, List.filter_nil, h, if_true]
    simp [listMax, matchCountLe]

/-- C4 (corrected): when the pattern occurs verbatim at an offset that the
scan actually visits — both coordinates multiples of the scan stride 3 and
strictly below the (exclusive) scan bounds — and the confidence threshold is
at most 1, the matcher returns a match whose offset has the full sample
match count (score 1.0). -/
theorem c4_verbatim_aligned_full_score (screen template : Img) (conf : ℚ)
    (ox oy : ℕ) (hocc : occursAt template screen ox oy)
    (hx : ox + template.width < screen.width)
    (hy : oy + template.height < screen.height)
    (hdx : 3 ∣ ox) (hdy : 3 ∣ oy)
    (htw : 0 < template.width) (hth : 0 < template.height)
    (hconf : conf ≤ 1) :
    ∃ mx my, pilTemplateMatch screen template conf
        = some (mx, my, template.width, template.height) ∧
      matchCountAt screen template mx my = numSamples template := by
  have hcount : matchCountAt screen template ox oy = numSamples template :=
    matchCountAt_full screen template ox oy hocc
  have hmem : (ox, oy) ∈ candidates screen template := by
    rw [mem_candidates]
    exact ⟨by omega, by omega, hdx, hdy⟩
  have hthr : threshold template conf ≤ (matchCountAt screen template ox oy : ℤ) := by
    rw [hcount]
    exact threshold_le template conf hconf
  have hone : 1 ≤ matchCountAt screen template ox oy := by
    rw [hcount]
    exact numSamples_pos template htw hth
  have hmax : ∀ c ∈ candidates screen template,
      matchCountAt screen template c.1 c.2 ≤ matchCountAt screen template ox oy := by
    intro c _
    rw [hcount]
    exact matchCountAt_le screen template c.1 c.2
  obtain ⟨p, hp, hpc⟩ := selFold_attains
    (fun c => matchCountAt screen template c.1 c.2) (threshold template conf)
    (candidates screen template) (ox, oy) hmem hthr hone hmax
  refine ⟨p.1, p.2, ?_, ?_⟩
  · rw [pilTemplateMatch, matchFold, hp]
    rfl
  · rw [hpc, hcount]

/-- C4 witness: the 1-by-1 uniform template occurs verbatim at the scanned
offset (0, 0) of the uniform 10-by-10 frame. -/
theorem c4_verbatim_aligned_full_score_witness :
    ∃ mx my, pilTemplateMatch frameGray tmplGray (4/5) = some (mx, my, 1, 1) ∧
      matchCountAt frameGray tmplGray mx my = numSamples tmplGray := by
  exact c4_verbatim_aligned_full_score frameGray tmplGray (4/5) 0 0
    (by decide) (by decide) (by decide) (dvd_zero 3) (dvd_zero 3)
    (by decide) (by decide) (by norm_num)

/-- C4 counterexample: (a) the pattern placed flush (frame = pattern) occurs
verbatim at offset (0, 0), yet the matcher returns `None` — the exclusive
scan bounds never visit that offset; (b) in a frame where the pattern occurs
verbatim at the interior scanned offset (6, 6), the returned center (0, 0)
is 6 pixels away from the placed region's center, far beyond the claimed
± 2: the occurrence is also matched at an earlier scanned offset, which
wins. -/
theorem c4_verbatim_match_cex :
    (occursAt tmplGray tmplGray 0 0 ∧
      pilTemplateMatch tmplGray tmplGray (4/5) = none) ∧
    (occursAt tmplGray frameGray 6 6 ∧
      findButtonPil 0 0 frameGray tmplGray (4/5) = some (0, 0)) := by
  refine ⟨⟨by decide, rfl⟩, ⟨by decide, ?_⟩⟩
  have h : threshold tmplGray (4/5) = 0 := by
    have h2 : numSamples tmplGray = 1 := by decide
    rw [threshold, h2]
    norm_num
  rw [findButtonPil, pilTemplateMatch, matchFold, h]
  decide

/-- C9 (confirmed): a pattern wider or taller than the frame yields `None`;
no error is raised and the candidate list is empty, so no position is
evaluated. -/
theorem c9_oversized_pattern_none (screen template : Img) (conf : ℚ)
    (h : screen.width < template.width ∨ screen.height < template.height) :
    candidates screen template = [] ∧
    pilTemplateMatch screen template conf = none := by
  have h2 := candidates_nil screen template
    (by rcases h with h | h
        · exact Or.inl (le_of_lt h)
        · exact Or.inr (le_of_lt h))
  exact ⟨h2.1, h2.2 conf⟩

/-- C9 witness: a 2-by-2 pattern against a 1-by-1 frame. -/
theorem c9_oversized_pattern_none_witness :
    candidates tmplPixel tmplFlat = [] ∧
    pilTemplateMatch tmplPixel tmplFlat (4/5) = none := by
  exact c9_oversized_pattern_none tmplPixel tmplFlat (4/5) (Or.inl (by decide))

/-- C10 (confirmed): the candidate offsets are exactly the stride-3 grid
points strictly below `frame - pattern` in each axis (the maximal offsets
are excluded); any returned match offset lies on that grid, and a pattern
exactly as wide or as tall as the frame yields `None` — so a pattern placed
flush against the right or bottom edge can never be matched at its exact
offset. -/
theorem c10_scan_grid_bounds (screen template : Img) (conf : ℚ) :
    (∀ c : ℕ × ℕ, c ∈ candidates screen template ↔
      (c.1 < screen.width - template.width ∧
        c.2 < screen.height - template.height ∧ 3 ∣ c.1 ∧ 3 ∣ c.2)) ∧
    (∀ mx my w h, pilTemplateMatch screen template conf = some (mx, my, w, h) →
      mx < screen.width - template.width ∧
      my < screen.height - template.height ∧ 3 ∣ mx ∧ 3 ∣ my) ∧
    (template.width = screen.width ∨ template.height = screen.height →
      pilTemplateMatch screen template conf = none) := by
  refine ⟨fun c => mem_candidates screen template c, ?_, ?_⟩
  · intro mx my w h hsome
    rw [pilTemplateMatch] at hsome
    rcases hsel : (matchFold screen template conf).1 with _ | p
    · rw [hsel] at hsome
      exact absurd hsome (by simp)
    · rw [hsel] at hsome
      have heq : (p.1, p.2, template.width, template.height) = (mx, my, w, h) := by
        injection hsome
      simp only [Prod.mk.injEq] at heq
      obtain ⟨h1, h2, _, _⟩ := heq
      rw [matchFold] at hsel
      obtain ⟨_, _, _, _, l₁, l₂, hdec, _⟩ :=
        (selFold_spec (fun c => matchCountAt screen template c.1 c.2)
          (threshold template conf) (candidates screen template)).2 p hsel
      have hpmem : p ∈ candidates screen template := by
        rw [hdec]
        exact List.mem_append_right _ (List.mem_cons_self _ _)
      rw [mem_candidates] at hpmem
      rw [← h1, ← h2]
      exact ⟨hpmem.1, hpmem.2.1, hpmem.2.2.1, hpmem.2.2.2⟩
  · intro h
    exact (candidates_nil screen template
      (by rcases h with h | h
          · exact Or.inl (le_of_eq h.symm)
          · exact Or.inr (le_of_eq h.symm))).2 conf

/-- C10 witness: the interior stride point (0, 0) is a candidate for the
2-by-2 pattern in the 5-by-5 frame, and a pattern as wide as the frame is
never matched. -/
theorem c10_scan_grid_bounds_witness :
    (0, 0) ∈ candidates frameDot tmplFlat ∧
    pilTemplateMatch tmplFlat tmplFlat (4/5) = none := by
  constructor
  · exact ((c10_scan_grid_bounds frameDot tmplFlat (4/5)).1 (0, 0)).mpr (by decide)
  · exact (c10_scan_grid_bounds tmplFlat tmplFlat (4/5)).2.2 (Or.inl rfl)

lemma getAllowedButtons_read (refreshInterval : ℚ) (cfgButtons : List String)
    (rawContent : String) (now : ℚ) (st : ReaderState)
    (hc : refreshInterval < now - st.lastReadTime) :
    ∃ cb lfc, getAllowedButtons true refreshInterval cfgButtons rawContent now st
      = (cb, ⟨now, cb, lfc⟩, true) := by
  rw [getAllowedButtons, if_neg (by simp), if_pos hc]
  by_cases hf : readFileText rawContent = st.lastFileContent
  · refine ⟨st.cachedButtons, st.lastFileContent, ?_⟩
    simp [hf]
  · refine ⟨parseButtonNames cfgButtons (readFileText rawContent),
      readFileText rawContent, ?_⟩
    simp [hf]

lemma getAllowedButtons_cached (refreshInterval : ℚ) (cfgButtons : List String)
    (rawContent : String) (now : ℚ) (st : ReaderState)
    (hc : ¬ refreshInterval < now - st.lastReadTime) :
    getAllowedButtons true refreshInterval cfgButtons rawContent now st
      = (st.cachedButtons, st, false) := by
  rw [getAllowedButtons, if_neg (by simp), if_neg hc]

/-- C7 (corrected): with the reader enabled, the underlying read happens
exactly when `now - last_read_at` strictly exceeds the refresh interval
(the boundary case `now - last_read_at = refresh_interval` performs no
read); a disabled reader never reads; and after a call that performed the
read, a second call within the interval performs no I/O and returns the
identical set with an unchanged state. -/
theorem c7_refresh_throttling (refreshInterval : ℚ) (cfgButtons : List String)
    (rawContent : String) (now : ℚ) (st : ReaderState) :
    ((getAllowedButtons true refreshInterval cfgButtons rawContent now st).2.2 = true ↔
      refreshInterval < now - st.lastReadTime) ∧
    (getAllowedButtons false refreshInterval cfgButtons rawContent now st).2.2 = false ∧
    ∀ now2 : ℚ,
      (getAllowedButtons true refreshInterval cfgButtons rawContent now st).2.2 = true →
      now2 - now ≤ refreshInterval →
      getAllowedButtons true refreshInterval cfgButtons rawContent now2
          (getAllowedButtons true refreshInterval cfgButtons rawContent now st).2.1
        = ((getAllowedButtons true refreshInterval cfgButtons rawContent now st).1,
           (getAllowedButtons true refreshInterval cfgButtons rawContent now st).2.1,
           false) := by
  refine ⟨?_, rfl, ?_⟩
  · by_cases hc : refreshInterval < now - st.lastReadTime
    · obtain ⟨cb, lfc, hrun⟩ := getAllowedButtons_read refreshInterval cfgButtons
        rawContent now st hc
      rw [hrun]
      simp [hc]
    · rw [getAllowedButtons_cached refreshInterval cfgButtons rawContent now st hc]
      simp [hc]
  · intro now2 hio hle
    by_cases hc : refreshInterval < now - st.lastReadTime
    · obtain ⟨cb, lfc, hrun⟩ := getAllowedButtons_read refreshInterval cfgButtons
        rawContent now st hc
      rw [hrun]
      have hc2 : ¬ refreshInterval < now2 - (⟨now, cb, lfc⟩ : ReaderState).lastReadTime := by
        show ¬ refreshInterval < now2 - now
        intro hlt
        linarith
      rw [getAllowedButtons_cached refreshInterval cfgButtons rawContent now2
        ⟨now, cb, lfc⟩ hc2]
    · rw [getAllowedButtons_cached refreshInterval cfgButtons rawContent now st hc] at hio
      exact Bool.noConfusion hio

/-- C7 witness: a concrete read at `now = 5` with interval 2 and last read
at 0, followed by a cached call at `now2 = 6`; and a disabled reader that
performs no read despite a long elapsed time. -/
theorem c7_refresh_throttling_witness :
    (getAllowedButtons true 2 defaultButtonNames "confirm" 5 ⟨0, [], ""⟩).2.2 = true ∧
    (getAllowedButtons false 2 defaultButtonNames "confirm" 100 ⟨0, [], ""⟩).2.2 = false ∧
    getAllowedButtons true 2 defaultButtonNames "confirm" 6
        (getAllowedButtons true 2 defaultButtonNames "confirm" 5 ⟨0, [], ""⟩).2.1
      = ((getAllowedButtons true 2 defaultButtonNames "confirm" 5 ⟨0, [], ""⟩).1,
         (getAllowedButtons true 2 defaultButtonNames "confirm" 5 ⟨0, [], ""⟩).2.1,
         false) := by
  have h := c7_refresh_throttling 2 defaultButtonNames "confirm" 5 ⟨0, [], ""⟩
  have hio : (getAllowedButtons true 2 defaultButtonNames "confirm" 5 ⟨0, [], ""⟩).2.2
      = true := h.1.mpr (by norm_num)
  exact ⟨hio, h.2.1, h.2.2 6 hio (by norm_num)⟩

/-- C7 counterexample: at `now - last_read_at = refresh_interval` exactly
(2 - 0 = 2), the claim demands a recompute, but the code performs no read
and returns the stale empty cache even though the source (`confirm`) parses
to a non-empty set; a disabled reader also never reads, no matter how much
time elapsed. -/
theorem c7_refresh_boundary_cex :
    getAllowedButtons true 2 defaultButtonNames "confirm" 2 ⟨0, [], ""⟩
      = ([], ⟨0, [], ""⟩, false) ∧
    readFileText "confirm" ≠ "" ∧
    getAllowedButtons false 2 defaultButtonNames "confirm" 100 ⟨0, [], ""⟩
      = ([], ⟨0, [], ""⟩, false) := by
  refine ⟨?_, by decide, rfl⟩
  rw [getAllowedButtons_cached 2 defaultButtonNames "confirm" 2 ⟨0, [], ""⟩
    (by norm_num)]

/-- C8 (confirmed): parsing discards comment and blank lines, joins the
rest with commas, splits on commas, trims and lowercases tokens, resolves
aliases and configured-name overlaps, and removes duplicates; the source
content with a comment line and an `accept` line parses to exactly
`{accept}`. -/
theorem c8_parse_allow_list :
    (∀ (cfgButtons : List String) (text : String),
      (parseButtonNames cfgButtons text).Nodup) ∧
    readFileText "# comment\naccept\n" = "accept" ∧
    parseButtonNames defaultButtonNames (readFileText "# comment\naccept\n")
      = ["accept"] := by
  refine ⟨?_, by decide, by decide⟩
  intro cfgButtons text
  rw [parseButtonNames]
  by_cases h : pyEmpty text = true
  · rw [if_pos h]
    exact List.nodup_nil
  · rw [if_neg h]
    exact List.nodup_dedup _

end AutoPermit
